import Mathlib

/-!
Verification of the pitch-booking repository's core logic.

The data model, the store-side capacity trigger, the availability
engine of the booking form, and the conversational dialogue manager are
shallowly embedded as executable Lean definitions, translated from:
  - supabase/migrations/*.sql          (schema, trigger `validate_player_limit`)
  - src/types/booking.ts               (`Booking`, `BookingParticipant`, `TIME_SLOTS`)
  - src/components/BookingForm.tsx     (`isSlotAvailable`, `availableSlots`)
  - src/components/BookingList.tsx     (`isUserInSession`, `isSessionFull`,
                                        `canJoin`, `canLeave`, `canDelete`)
  - src/components/AIAssistant.tsx     (the finite-state dialogue manager)
-/

namespace Pitchbooking

/-! ## Data model (schema of `bookings` and `booking_participants`) -/

/-- session_type column: TEXT CHECK (session_type IN ('open', 'closed')). -/
inductive SessionType
  | open'
  | closed'
deriving DecidableEq, Repr

/-- A row of `public.bookings`. `id` is modelled as a `Nat`; `date` and
`start_time` are kept as the strings the client code compares
('yyyy-MM-dd' and 'HH:00'). `max_players` is nullable. -/
structure Booking where
  id : Nat
  created_by_name : String
  created_by_level : String
  date : String
  start_time : String
  duration : Nat
  session_type : SessionType
  max_players : Option Nat
deriving DecidableEq, Repr

/-- A row of `public.booking_participants`. -/
structure Participant where
  booking_id : Nat
  player_name : String
  player_level : String
deriving DecidableEq, Repr

/-- The booking/participation store: the two tables. -/
structure Store where
  bookings : List Booking
  participants : List Participant
deriving DecidableEq, Repr

/-- CHECK constraint `max_players_for_open` on `public.bookings`:
(session_type = 'closed') OR (session_type = 'open' AND max_players IS NOT
NULL AND max_players >= 2). -/
def schemaOk (bookings : List Booking) : Prop :=
  ∀ b ∈ bookings, b.session_type = SessionType.open' →
    ∃ m, b.max_players = some m ∧ 2 ≤ m

/-- SELECT COUNT(*) FROM booking_participants WHERE booking_id = bid. -/
def countParticipants (ps : List Participant) (bid : Nat) : Nat :=
  (ps.filter (fun p => p.booking_id == bid)).length

/-! ## Store-side trigger `validate_player_limit`
(migration 20260115074941, BEFORE INSERT ON booking_participants FOR EACH ROW) -/

inductive TriggerError
  | bookingNotFound
  | closedSession
  | sessionFull
deriving DecidableEq, Repr

/-- The plpgsql trigger body: look up the booking; reject if missing; reject
if closed; count current participants; reject if max_players is not null and
(count + 2) > max_players; otherwise let the row through. -/
def validate_player_limit (bookings : List Booking) (participants : List Participant)
    (new : Participant) : Except TriggerError Unit :=
  match bookings.find? (fun b => b.id == new.booking_id) with
  | none => Except.error TriggerError.bookingNotFound
  | some b =>
    if b.session_type == SessionType.closed' then
      Except.error TriggerError.closedSession
    else
      let c := countParticipants participants new.booking_id
      match b.max_players with
      | some m =>
        if c + 2 > m then Except.error TriggerError.sessionFull else Except.ok ()
      | none => Except.ok ()

inductive InsertError
  | trigger (e : TriggerError)
  | duplicateParticipant
deriving DecidableEq, Repr

/-- One INSERT INTO booking_participants: the BEFORE trigger runs first, then
the UNIQUE (booking_id, player_name, player_level) constraint is checked,
then the row is stored. -/
def insertParticipant (st : Store) (new : Participant) : Except InsertError Store :=
  match validate_player_limit st.bookings st.participants new with
  | Except.error e => Except.error (InsertError.trigger e)
  | Except.ok () =>
    if st.participants.any (fun p =>
        p.booking_id == new.booking_id &&
        p.player_name == new.player_name &&
        p.player_level == new.player_level) then
      Except.error InsertError.duplicateParticipant
    else
      Except.ok { st with participants := new :: st.participants }

/-! ## Client-side primitives (JS string and number idioms) -/

/-- Whether `pat` starts the list `l`. -/
def startsWithList : List Char → List Char → Bool
  | [], _ => true
  | _ :: _, [] => false
  | c :: cs, d :: ds => c == d && startsWithList cs ds

/-- Whether `pat` occurs contiguously inside `l`. -/
def containsList (pat : List Char) : List Char → Bool
  | [] => pat.isEmpty
  | c :: cs => startsWithList pat (c :: cs) || containsList pat cs

/-- JS `haystack.includes(needle)`: substring containment. -/
def containsStr (haystack pat : String) : Bool :=
  containsList pat.toList haystack.toList

/-- ASCII lower-casing of one character (the case JS `toLowerCase` performs
on the keyword/digit messages this code matches). -/
def asciiToLower (c : Char) : Char :=
  if 65 ≤ c.toNat ∧ c.toNat ≤ 90 then Char.ofNat (c.toNat + 32) else c

/-- JS `s.toLowerCase()`. -/
def toLowerStr (s : String) : String :=
  String.mk (s.toList.map asciiToLower)

/-- Digit characters to the number they denote, most significant first. -/
def digitsToNatAux (acc : Nat) : List Char → Nat
  | [] => acc
  | c :: cs => digitsToNatAux (acc * 10 + (c.toNat - 48)) cs

/-- JS `parseInt` on the strings this code feeds it: parse the leading digit
run; none when the string does not start with a digit (NaN). -/
def jsParseInt (s : List Char) : Option Nat :=
  let ds := s.takeWhile Char.isDigit
  if ds.isEmpty then none else some (digitsToNatAux 0 ds)

/-- JS `x || dflt` on a nullable number: null and 0 are falsy. -/
def jsOr (x : Option Nat) (dflt : Nat) : Nat :=
  match x with
  | none => dflt
  | some 0 => dflt
  | some n => n

/-- JS `parseInt(t.split(':')[0])` as used on 'HH:00' time strings: the part
before the first ':' parsed as a number (0 standing in for NaN, which never
arises on the grid's time strings). -/
def parseHour (t : String) : Nat :=
  (jsParseInt (t.toList.takeWhile (fun c => !(c == ':')))).getD 0

/-- JS `s.padStart(2, '0')`. -/
def pad2 (s : String) : String :=
  if s.length < 2 then "0" ++ s else s

/-- Group 1 of the first match of the regex /(\d\x7b1,2\x7d):?(\d\x7b2\x7d)?/ :
scan to the first digit, then greedily take a second digit if present. -/
def firstTimeToken : List Char → Option (List Char)
  | [] => none
  | c :: cs =>
    if c.isDigit then
      match cs with
      | d :: _ => if d.isDigit then some [c, d] else some [c]
      | [] => some [c]
    else firstTimeToken cs

/-- Group 1 of the first match of /(\d+)/ : the first maximal run of digits. -/
def firstDigitRun : List Char → Option (List Char)
  | [] => none
  | c :: cs =>
    if c.isDigit then some (c :: cs.takeWhile Char.isDigit)
    else firstDigitRun cs

/-- AIAssistant.tsx, handleActionResponse lines 241-242:
`const timeMatch = userMessage.match(...)`;
`const time = timeMatch ? timeMatch[1].padStart(2, '0') + ':00' : null`. -/
def extractTime (msg : String) : Option String :=
  (firstTimeToken msg.toList).map (fun ds => pad2 (String.mk ds) ++ ":00")

/-! ## BookingForm.tsx: the interval-overlap availability check -/

structure TimeSlot where
  time : String
  label : String
deriving DecidableEq, Repr

/-- src/types/booking.ts `TIME_SLOTS`: the fixed grid offered by the form. -/
def TIME_SLOTS : List TimeSlot :=
  [⟨"08:00", "8:00 AM"⟩, ⟨"09:00", "9:00 AM"⟩, ⟨"10:00", "10:00 AM"⟩,
   ⟨"11:00", "11:00 AM"⟩, ⟨"12:00", "12:00 PM"⟩, ⟨"13:00", "1:00 PM"⟩,
   ⟨"14:00", "2:00 PM"⟩, ⟨"15:00", "3:00 PM"⟩, ⟨"16:00", "4:00 PM"⟩,
   ⟨"17:00", "5:00 PM"⟩, ⟨"18:00", "6:00 PM"⟩, ⟨"19:00", "7:00 PM"⟩,
   ⟨"20:00", "8:00 PM"⟩]

/-- The for-loop of BookingForm's `isSlotAvailable`: on any interval overlap
the function returns false (in both the closed and the open branch). -/
def isSlotAvailableLoop (slotStart slotEnd : Nat) : List Booking → Bool
  | [] => true
  | b :: rest =>
    let bookingStart := parseHour b.start_time
    let bookingEnd := bookingStart + b.duration
    if slotStart < bookingEnd && slotEnd > bookingStart then
      if b.session_type == SessionType.closed' then false else false
    else isSlotAvailableLoop slotStart slotEnd rest

/-- BookingForm.tsx `isSlotAvailable(time, dur)`: false without a selected
date; otherwise scan the date's existing bookings for interval overlap. -/
def isSlotAvailable (hasSelectedDate : Bool) (existingBookings : List Booking)
    (time : String) (dur : Nat) : Bool :=
  if !hasSelectedDate then false
  else
    let slotStart := parseHour time
    let slotEnd := slotStart + dur
    isSlotAvailableLoop slotStart slotEnd existingBookings

/-- BookingForm.tsx `availableSlots`: the TIME_SLOTS the form offers. -/
def availableSlots (hasSelectedDate : Bool) (existingBookings : List Booking)
    (dur : Nat) : List TimeSlot :=
  TIME_SLOTS.filter (fun slot => isSlotAvailable hasSelectedDate existingBookings slot.time dur)

/-! ## BookingList.tsx: join/leave/delete gating -/

/-- The logged-in identity (name + level), from the login form. -/
structure User where
  name : String
  level : String
deriving DecidableEq, Repr

/-- A client-side `BookingWithParticipants`: a booking row joined with its
participant rows. -/
structure BookingW where
  id : Nat
  created_by_name : String
  created_by_level : String
  date : String
  start_time : String
  duration : Nat
  session_type : SessionType
  max_players : Option Nat
  participants : List Participant
deriving DecidableEq, Repr

/-- BookingList.tsx `isUserInSession`: creator match or participant match. -/
def isUserInSession (user : Option User) (b : BookingW) : Bool :=
  match user with
  | none => false
  | some u =>
    if b.created_by_name == u.name && b.created_by_level == u.level then true
    else b.participants.any (fun p => p.player_name == u.name && p.player_level == u.level)

/-- BookingList.tsx `isSessionFull`: closed sessions always count as full;
open sessions are full when participants + 1 reaches (max_players || 0). -/
def isSessionFull (b : BookingW) : Bool :=
  if b.session_type == SessionType.closed' then true
  else
    let totalPlayers := b.participants.length + 1
    totalPlayers ≥ jsOr b.max_players 0

/-- BookingList.tsx `canJoin`. -/
def canJoin (user : Option User) (b : BookingW) : Bool :=
  b.session_type == SessionType.open' && !isUserInSession user b && !isSessionFull b

/-- BookingList.tsx `canLeave`: only a matching participant row, never the
creator as such. -/
def canLeave (user : Option User) (b : BookingW) : Bool :=
  match user with
  | none => false
  | some u =>
    b.participants.any (fun p => p.player_name == u.name && p.player_level == u.level)

/-- BookingList.tsx `canDelete`: only the creator (name + level match). -/
def canDelete (user : Option User) (b : BookingW) : Bool :=
  match user with
  | none => false
  | some u =>
    b.created_by_name == u.name && b.created_by_level == u.level

/-! ## AIAssistant.tsx: the finite-state dialogue manager

Wall-clock facts are abstracted into a `Clock`: dates are represented by the
'yyyy-MM-dd' strings the component formats them to, a resolved target date by
its day offset from today. -/

inductive ConversationStep
  | greeting
  | ask_when
  | show_options
  | ask_action
  | ask_session_type
  | ask_max_players
  | ask_duration
  | confirm_booking
  | confirm_join
  | done
deriving DecidableEq, Repr

/-- The `bookingState` draft accumulated across the dialogue. -/
structure BookingState where
  date : Option String := none
  time : Option String := none
  sessionType : Option SessionType := none
  maxPlayers : Option Nat := none
  duration : Option Nat := none
  bookingToJoin : Option BookingW := none
deriving DecidableEq, Repr

/-- The date-fns facts the component reads from the wall clock:
`addDaysStr i` is format(addDays(today, i), 'yyyy-MM-dd'), `isWeekendAt i`
is isWeekend(addDays(today, i)), `dayOfWeek` is today.getDay(), `hourNow`
is now.getHours(), and `weekdayName d` is format(parseISO(d), 'EEEE'). -/
structure Clock where
  addDaysStr : Nat → String
  isWeekendAt : Nat → Bool
  dayOfWeek : Nat
  hourNow : Nat
  weekdayName : String → String

/-- One tag per `addBotMessage` call site in AIAssistant.tsx. -/
inductive BotMsg
  | didNotCatchDay
  | fullyBooked
  | optionsList
  | joinConfirm
  | noOpenSessionAt
  | slotTaken
  | askSessionType
  | whichJoin
  | noOpenGames
  | whichBookTime
  | noEmptySlots
  | actionFallback
  | askMaxPlayers
  | closedAskDuration
  | chooseSessionType
  | playersAskDuration
  | bookingSummary
  | bookedOk
  | bookingFailed
  | joinedOk
  | joinFailed
  | noProblemWhen
  | whenJoinAgain
  | byeMessage
  | sureAnotherDay
deriving DecidableEq, Repr

/-- A mutation sent to the external store. -/
inductive StoreWrite
  | insertBookingRow (created_by_name created_by_level date start_time : String)
      (duration : Nat) (session_type : SessionType) (max_players : Option Nat)
  | insertParticipantRow (booking_id : Nat) (player_name player_level : String)
deriving DecidableEq, Repr

/-- Conversation state: `conversationStep` plus the draft. -/
structure AState where
  step : ConversationStep
  bstate : BookingState
deriving DecidableEq, Repr

/-- The effect of processing one user message: the next conversation state,
the bot messages emitted, and the store writes attempted. -/
structure StepResult where
  state : AState
  msgs : List BotMsg
  writes : List StoreWrite
deriving DecidableEq, Repr

/-- Object.entries of the `dayMap` literal, in source order. -/
def weekdayEntries : List (String × Nat) :=
  [("sunday", 0), ("monday", 1), ("tuesday", 2), ("wednesday", 3),
   ("thursday", 4), ("friday", 5), ("saturday", 6)]

/-- The weekday-name loop of `findDateByDayName`: next occurrence strictly in
the future (daysUntil ≤ 0 wraps by +7). -/
def findWeekdayLoop (dow : Nat) (lower : String) : List (String × Nat) → Option Nat
  | [] => none
  | (day, num) :: rest =>
    if containsStr lower day then
      let daysUntil : Int := (num : Int) - (dow : Int)
      let daysUntil := if daysUntil ≤ 0 then daysUntil + 7 else daysUntil
      some daysUntil.toNat
    else findWeekdayLoop dow lower rest

/-- AIAssistant.tsx `findDateByDayName`, returning the resolved day offset
from today. The weekend scan falls through to the later checks when no
weekend day is found within 0..7 (mirroring the source's missing return). -/
def findDateByDayName (clock : Clock) (dayName : String) : Option Nat :=
  let lower := toLowerStr dayName
  if containsStr lower "today" || containsStr lower "now" then some 0
  else if containsStr lower "tomorrow" then some 1
  else
    match (if containsStr lower "weekend"
           then (List.range 8).find? clock.isWeekendAt
           else none) with
    | some i => some i
    | none =>
      if containsStr lower "next week" then some 7
      else findWeekdayLoop clock.dayOfWeek lower weekdayEntries

/-- One entry of the slot list built by `getAvailableSlotsForDate`. -/
structure ASlot where
  time : String
  isAvailable : Bool
  openSession : Option BookingW
deriving DecidableEq, Repr

/-- The body of the hour loop in AIAssistant.tsx `getAvailableSlotsForDate`:
skip past hours of today; a slot with no booking *starting* at it is free; a
slot where an open session starts is kept iff spotsLeft > 0; otherwise the
hour is omitted. -/
def classifyHour (clock : Clock) (bookings : List BookingW) (dateStr : String)
    (hour : Nat) : Option ASlot :=
  let timeStr := pad2 (toString hour) ++ ":00"
  let isToday := dateStr == clock.addDaysStr 0
  if isToday && hour ≤ clock.hourNow then none
  else
    match bookings.find? (fun b => b.date == dateStr && b.start_time == timeStr) with
    | none => some ⟨timeStr, true, none⟩
    | some b =>
      if b.session_type == SessionType.open' then
        let spotsLeft : Int := (jsOr b.max_players 10 : Int) - ((b.participants.length : Int) + 1)
        if spotsLeft > 0 then some ⟨timeStr, true, some b⟩ else none
      else none

/-- AIAssistant.tsx `getAvailableSlotsForDate`: hours 8 through 19. -/
def getAvailableSlotsForDate (clock : Clock) (bookings : List BookingW)
    (dateStr : String) : List ASlot :=
  ((List.range 12).map (fun k => k + 8)).filterMap (classifyHour clock bookings dateStr)

/-- AIAssistant.tsx `handleWhenResponse`: resolve the day, re-prompt when
unresolved or fully booked, else store the date (resetting the rest of the
draft) and move to ask_action. -/
def handleWhenResponse (clock : Clock) (bookings : List BookingW) (st : AState)
    (userMessage : String) : StepResult :=
  match findDateByDayName clock userMessage with
  | none => ⟨st, [BotMsg.didNotCatchDay], []⟩
  | some off =>
    let dateStr := clock.addDaysStr off
    let slots := getAvailableSlotsForDate clock bookings dateStr
    if slots.length == 0 then ⟨st, [BotMsg.fullyBooked], []⟩
    else
      ⟨⟨ConversationStep.ask_action, { date := some dateStr }⟩, [BotMsg.optionsList], []⟩

/-- The no-time-token tail of `handleActionResponse`. -/
def handleActionNoTime (clock : Clock) (bookings : List BookingW) (st : AState)
    (lower : String) : StepResult :=
  if containsStr lower "join" then
    let openSessions := bookings.filter (fun b =>
      (match st.bstate.date with
       | some d => b.date == d
       | none => false) && b.session_type == SessionType.open')
    if openSessions.length > 0 then ⟨st, [BotMsg.whichJoin], []⟩
    else ⟨st, [BotMsg.noOpenGames], []⟩
  else if containsStr lower "book" then
    let slots := (getAvailableSlotsForDate clock bookings (st.bstate.date.getD "")).filter
      (fun s => s.openSession.isNone)
    if slots.length > 0 then ⟨st, [BotMsg.whichBookTime], []⟩
    else ⟨⟨ConversationStep.ask_when, st.bstate⟩, [BotMsg.noEmptySlots], []⟩
  else ⟨st, [BotMsg.actionFallback], []⟩

/-- AIAssistant.tsx `handleActionResponse`: extract a time token, branch on
the join/book verb; the conflict check for a fresh booking is a lookup of a
booking with the *same start time* on that date. -/
def handleActionResponse (clock : Clock) (bookings : List BookingW) (st : AState)
    (userMessage : String) : StepResult :=
  let lower := toLowerStr userMessage
  match extractTime userMessage with
  | some time =>
    if containsStr lower "join" then
      let dateStr := st.bstate.date.getD ""
      match bookings.find? (fun b =>
          b.date == dateStr && b.start_time == time &&
          b.session_type == SessionType.open') with
      | some session =>
        ⟨⟨ConversationStep.confirm_join,
          { st.bstate with time := some time, bookingToJoin := some session }⟩,
         [BotMsg.joinConfirm], []⟩
      | none => ⟨st, [BotMsg.noOpenSessionAt], []⟩
    else if containsStr lower "book" then
      let dateStr := st.bstate.date.getD ""
      match bookings.find? (fun b => b.date == dateStr && b.start_time == time) with
      | some _ => ⟨st, [BotMsg.slotTaken], []⟩
      | none =>
        ⟨⟨ConversationStep.ask_session_type, { st.bstate with time := some time }⟩,
         [BotMsg.askSessionType], []⟩
    else handleActionNoTime clock bookings st lower
  | none => handleActionNoTime clock bookings st lower

/-- AIAssistant.tsx `handleSessionTypeResponse`. -/
def handleSessionTypeResponse (st : AState) (userMessage : String) : StepResult :=
  let lower := toLowerStr userMessage
  if containsStr lower "open" then
    ⟨⟨ConversationStep.ask_max_players,
      { st.bstate with sessionType := some SessionType.open' }⟩,
     [BotMsg.askMaxPlayers], []⟩
  else if containsStr lower "closed" || containsStr lower "private" then
    ⟨⟨ConversationStep.ask_duration,
      { st.bstate with sessionType := some SessionType.closed', maxPlayers := none }⟩,
     [BotMsg.closedAskDuration], []⟩
  else
    ⟨st, [BotMsg.chooseSessionType], []⟩

/-- AIAssistant.tsx `handleMaxPlayersResponse`: the first number in the
message, defaulting to 14 when none is present; always advances. -/
def handleMaxPlayersResponse (st : AState) (userMessage : String) : StepResult :=
  let maxPlayers :=
    match firstDigitRun userMessage.toList with
    | some ds => (jsParseInt ds).getD 14
    | none => 14
  ⟨⟨ConversationStep.ask_duration, { st.bstate with maxPlayers := some maxPlayers }⟩,
   [BotMsg.playersAskDuration], []⟩

/-- AIAssistant.tsx `handleDurationResponse`: 2 hours iff the raw message
contains the character '2', else 1 hour; always advances. -/
def handleDurationResponse (st : AState) (userMessage : String) : StepResult :=
  let duration := if containsStr userMessage "2" then 2 else 1
  ⟨⟨ConversationStep.confirm_booking, { st.bstate with duration := some duration }⟩,
   [BotMsg.bookingSummary], []⟩

/-- AIAssistant.tsx `resetConversation`: clear the draft, back to ask_when. -/
def resetConversation (_st : AState) : StepResult :=
  ⟨⟨ConversationStep.ask_when, {}⟩, [BotMsg.noProblemWhen], []⟩

/-- AIAssistant.tsx `handleConfirmBooking`. `insertOk` abstracts the
external store's response to the attempted insert. -/
def handleConfirmBooking (user : User) (insertOk : Bool) (st : AState)
    (userMessage : String) : StepResult :=
  let lower := toLowerStr userMessage
  if containsStr lower "yes" || containsStr lower "book" then
    let w := StoreWrite.insertBookingRow user.name user.level
      (st.bstate.date.getD "") (st.bstate.time.getD "")
      (jsOr st.bstate.duration 1)
      (st.bstate.sessionType.getD SessionType.open')
      (if st.bstate.sessionType == some SessionType.open'
       then some (jsOr st.bstate.maxPlayers 14) else none)
    if insertOk then
      ⟨⟨ConversationStep.done, {}⟩, [BotMsg.bookedOk], [w]⟩
    else
      ⟨st, [BotMsg.bookingFailed], [w]⟩
  else resetConversation st

/-- AIAssistant.tsx `handleConfirmJoin`. The negative branch re-runs
`handleWhenResponse` on the stored date's weekday name, then forces the step
to ask_action. A missing `bookingToJoin` throws inside the try block and
surfaces as the failure message with no write. -/
def handleConfirmJoin (clock : Clock) (bookings : List BookingW) (user : User)
    (insertOk : Bool) (st : AState) (userMessage : String) : StepResult :=
  let lower := toLowerStr userMessage
  if containsStr lower "yes" || containsStr lower "join" then
    match st.bstate.bookingToJoin with
    | some session =>
      let w := StoreWrite.insertParticipantRow session.id user.name user.level
      if insertOk then
        ⟨⟨ConversationStep.done, {}⟩, [BotMsg.joinedOk], [w]⟩
      else
        ⟨st, [BotMsg.joinFailed], [w]⟩
    | none => ⟨st, [BotMsg.joinFailed], []⟩
  else
    let r := handleWhenResponse clock bookings st
      (clock.weekdayName (st.bstate.date.getD ""))
    ⟨⟨ConversationStep.ask_action, r.state.bstate⟩, r.msgs, r.writes⟩

/-- AIAssistant.tsx `handleDoneResponse`. -/
def handleDoneResponse (st : AState) (userMessage : String) : StepResult :=
  let lower := toLowerStr userMessage
  if containsStr lower "book" || containsStr lower "another" then resetConversation st
  else if containsStr lower "join" then
    ⟨⟨ConversationStep.ask_when, st.bstate⟩, [BotMsg.whenJoinAgain], []⟩
  else if containsStr lower "bye" || containsStr lower "thanks" then
    ⟨st, [BotMsg.byeMessage], []⟩
  else resetConversation st

/-- AIAssistant.tsx `processMessage`: the universal reset phrases are handled
first, then the current step's handler runs. -/
def processMessage (clock : Clock) (bookings : List BookingW) (user : User)
    (insertOk : Bool) (st : AState) (userMessage : String) : StepResult :=
  let lower := toLowerStr userMessage
  if containsStr lower "start over" || containsStr lower "cancel" ||
      containsStr lower "reset" then
    resetConversation st
  else if containsStr lower "another day" || containsStr lower "different day" ||
      containsStr lower "pick another" then
    ⟨⟨ConversationStep.ask_when, st.bstate⟩, [BotMsg.sureAnotherDay], []⟩
  else
    match st.step with
    | ConversationStep.ask_when => handleWhenResponse clock bookings st userMessage
    | ConversationStep.ask_action => handleActionResponse clock bookings st userMessage
    | ConversationStep.show_options => handleActionResponse clock bookings st userMessage
    | ConversationStep.ask_session_type => handleSessionTypeResponse st userMessage
    | ConversationStep.ask_max_players => handleMaxPlayersResponse st userMessage
    | ConversationStep.ask_duration => handleDurationResponse st userMessage
    | ConversationStep.confirm_booking => handleConfirmBooking user insertOk st userMessage
    | ConversationStep.confirm_join => handleConfirmJoin clock bookings user insertOk st userMessage
    | ConversationStep.done => handleDoneResponse st userMessage
    | ConversationStep.greeting => resetConversation st

/-! ## Spec-side definitions (for comparison with the code) -/

/-- The spec's overlap notion: the half-open hour intervals `[s, s+d)` and
`[t, t+e)` share a point. -/
def intervalsIntersect (s d t e : Nat) : Prop :=
  ∃ x, (s ≤ x ∧ x < s + d) ∧ (t ≤ x ∧ x < t + e)

/-- The spec's occupied-cell notion: hour `h` lies inside the booking's
occupied interval `[start, start+duration)`. -/
def hourWithinBooking (h : Nat) (b : BookingW) : Prop :=
  parseHour b.start_time ≤ h ∧ h < parseHour b.start_time + b.duration

/-- The claim's reading of the time token: the first 1-2 digit number in the
message, i.e. the first maximal digit run truncated to two digits. -/
def claimFirstHourToken (msg : String) : Option String :=
  (firstDigitRun msg.toList).map (fun ds => String.mk (ds.take 2))

/-! ## Concrete fixtures used in counterexamples and witnesses -/

/-- A fixed wall clock: today formats to "20250609", a Monday at 00:00,
no weekend within reach (the fixtures below book dates other than today). -/
def cClock : Clock :=
  { addDaysStr := fun n => toString (20250609 + n)
    isWeekendAt := fun _ => false
    dayOfWeek := 1
    hourNow := 0
    weekdayName := fun _ => "Monday" }

/-- A closed 2-hour reservation at 10:00 on 2025-06-01. -/
def bClosed2h : BookingW :=
  ⟨1, "Ada", "100", "2025-06-01", "10:00", 2, SessionType.closed', none, []⟩

/-- An open 1-hour session at 10:00 on 2025-06-01, max 5, with Bob already
a participant. -/
def bOpen10 : BookingW :=
  ⟨2, "Ada", "100", "2025-06-01", "10:00", 1, SessionType.open', some 5,
   [⟨2, "Bob", "200"⟩]⟩

/-- An open 1-hour session at 14:00 on 2025-06-01 with room to join. -/
def bOpen14 : BookingW :=
  ⟨4, "Ada", "100", "2025-06-01", "14:00", 1, SessionType.open', some 10, []⟩

def uAda : User := ⟨"Ada", "100"⟩

def uBob : User := ⟨"Bob", "200"⟩

/-- The store row of an open booking (max_players 4) created by Ada. -/
def bOpenRow : Booking :=
  ⟨1, "Ada", "100", "2025-06-01", "10:00", 1, SessionType.open', some 4⟩

/-- A store holding that open booking with Bob as the one participant. -/
def stOpen : Store := ⟨[bOpenRow], [⟨1, "Bob", "200"⟩]⟩

/-- A new participant row for Cyd. -/
def pCyd : Participant := ⟨1, "Cyd", "300"⟩

/-- A participant row carrying the creator's own identity. -/
def pAda : Participant := ⟨1, "Ada", "100"⟩

/-- The store row of a closed 2-hour booking at 10:00. -/
def bClosedRow2h : Booking :=
  ⟨3, "Ada", "100", "2025-06-01", "10:00", 2, SessionType.closed', none⟩

/-- A draft as it stands on entering ask_max_players for an open booking. -/
def draftMax : BookingState :=
  { date := some "2025-06-01", time := some "11:00",
    sessionType := some SessionType.open' }

/-- A draft as it stands on entering ask_duration for a closed booking. -/
def draftDur : BookingState :=
  { date := some "2025-06-01", time := some "11:00",
    sessionType := some SessionType.closed' }

/-- A complete closed-booking draft awaiting confirmation. -/
def draftConfirm : BookingState :=
  { date := some "2025-06-01", time := some "11:00",
    sessionType := some SessionType.closed', duration := some 1 }

/-! ## Theorems -/

/-- Helper: counting after consing a row for the same booking. -/
theorem countParticipants_cons_same (ps : List Participant) (p : Participant) :
    countParticipants (p :: ps) p.booking_id =
      countParticipants ps p.booking_id + 1 := by
  simp [countParticipants, List.filter]

/-- C1: with every booking satisfying the schema CHECK constraint, the
per-row BEFORE-INSERT trigger accepts a participant insertion exactly when
the referenced booking exists, is not closed, and (current participant count
+ 2) ≤ max_players — i.e. it rejects exactly on missing booking, closed
session, or (count + 2) > max_players — and after every successful
insertion the invariant 1 + participants.count ≤ max_players holds for the
booking joined. -/
theorem c1_capacity_trigger (st : Store) (new : Participant)
    (hschema : schemaOk st.bookings) :
    (validate_player_limit st.bookings st.participants new = Except.ok () ↔
      ∃ b, st.bookings.find? (fun x => x.id == new.booking_id) = some b ∧
        b.session_type = SessionType.open' ∧
        ∃ m, b.max_players = some m ∧
          countParticipants st.participants new.booking_id + 2 ≤ m) ∧
    (∀ st', insertParticipant st new = Except.ok st' →
      ∀ b m, st'.bookings.find? (fun x => x.id == new.booking_id) = some b →
        b.max_players = some m →
        1 + countParticipants st'.participants new.booking_id ≤ m) := by
  have hmain : validate_player_limit st.bookings st.participants new = Except.ok () ↔
      ∃ b, st.bookings.find? (fun x => x.id == new.booking_id) = some b ∧
        b.session_type = SessionType.open' ∧
        ∃ m, b.max_players = some m ∧
          countParticipants st.participants new.booking_id + 2 ≤ m := by
    constructor
    · intro hok
      unfold validate_player_limit at hok
      cases hfind : st.bookings.find? (fun x => x.id == new.booking_id) with
      | none => rw [hfind] at hok; exact absurd hok (by simp)
      | some b =>
        rw [hfind] at hok
        dsimp only at hok
        have hmem : b ∈ st.bookings := List.mem_of_find?_eq_some hfind
        cases hst : b.session_type with
        | closed' => rw [hst] at hok; simp at hok
        | open' =>
          obtain ⟨m, hm, _⟩ := hschema b hmem hst
          refine ⟨b, rfl, hst, m, hm, ?_⟩
          rw [hst, hm] at hok
          simp only [show (SessionType.open' == SessionType.closed') = false from rfl,
            Bool.false_eq_true, if_false] at hok
          by_cases hc : countParticipants st.participants new.booking_id + 2 > m
          · rw [if_pos hc] at hok; exact absurd hok (by simp)
          · omega
    · rintro ⟨b, hfind, hopen, m, hm, hc⟩
      unfold validate_player_limit
      rw [hfind]
      dsimp only
      rw [hopen, hm]
      simp only [show (SessionType.open' == SessionType.closed') = false from rfl,
        Bool.false_eq_true, if_false]
      rw [if_neg (by omega)]
  refine ⟨hmain, ?_⟩
  intro st' hins b m hfind' hm
  unfold insertParticipant at hins
  cases hval : validate_player_limit st.bookings st.participants new with
  | error e => rw [hval] at hins; exact absurd hins (by simp)
  | ok u =>
    cases u
    rw [hval] at hins
    by_cases hdup : st.participants.any (fun p =>
        p.booking_id == new.booking_id &&
        p.player_name == new.player_name &&
        p.player_level == new.player_level) = true
    · rw [if_pos hdup] at hins; exact absurd hins (by simp)
    · rw [if_neg hdup] at hins
      have hst' : st' = { st with participants := new :: st.participants } := by
        cases hins; rfl
      subst hst'
      obtain ⟨b', hfind, hopen, m', hm', hc'⟩ := hmain.mp hval
      have hb : b' = b := by
        have : st.bookings.find? (fun x => x.id == new.booking_id) = some b := hfind'
        rw [hfind] at this
        exact (Option.some.inj this)
      subst hb
      have hmm : m' = m := by
        rw [hm'] at hm
        exact (Option.some.inj hm)
      subst hmm
      have hcount : countParticipants (new :: st.participants) new.booking_id =
          countParticipants st.participants new.booking_id + 1 :=
        countParticipants_cons_same st.participants new
      simpa [hcount] using by omega

/-- Witness for c1_capacity_trigger: in the concrete store (open booking,
max 4, one participant) the trigger accepts Cyd's insertion. -/
theorem c1_capacity_trigger_witness :
    validate_player_limit stOpen.bookings stOpen.participants pCyd = Except.ok () := by
  refine (c1_capacity_trigger stOpen pCyd ?_).1.mpr ?_
  · intro b hb hopen
    simp only [stOpen] at hb
    rw [List.mem_singleton] at hb
    subst hb
    exact ⟨4, rfl, by norm_num⟩
  · exact ⟨bOpenRow, by decide, rfl, 4, rfl, by decide⟩

/-- Helper: the strict-inequality overlap formula of the form's conflict
check agrees with half-open interval intersection for positive durations. -/
theorem overlap_formula_iff (s d t e : Nat) (hd : 0 < d) (he : 0 < e) :
    (s < t + e ∧ t < s + d) ↔ intervalsIntersect s d t e := by
  constructor
  · rintro ⟨h1, h2⟩
    exact ⟨max s t, ⟨by omega, by omega⟩, ⟨by omega, by omega⟩⟩
  · rintro ⟨x, ⟨hsx, hxd⟩, htx, hxe⟩
    omega

/-- Helper: the for-loop of the form's `isSlotAvailable` succeeds iff no
booking's strict-inequality overlap test fires. -/
theorem isSlotAvailableLoop_iff (s e : Nat) (bs : List Booking) :
    isSlotAvailableLoop s e bs = true ↔
      ∀ b ∈ bs, ¬(s < parseHour b.start_time + b.duration ∧ parseHour b.start_time < e) := by
  induction bs with
  | nil => simp [isSlotAvailableLoop]
  | cons b rest ih =>
    by_cases h : s < parseHour b.start_time + b.duration ∧ parseHour b.start_time < e
    · have hcond : (decide (s < parseHour b.start_time + b.duration) &&
          decide (e > parseHour b.start_time)) = true := by
        simp [h.1, h.2, gt_iff_lt]
      simp only [isSlotAvailableLoop, hcond, if_true]
      constructor
      · intro hfalse
        cases hb : b.session_type == SessionType.closed' <;> simp [hb] at hfalse
      · intro hall
        exact absurd h (hall b (List.mem_cons_self b rest))
    · have hcond : (decide (s < parseHour b.start_time + b.duration) &&
          decide (e > parseHour b.start_time)) = false := by
        by_cases hA : s < parseHour b.start_time + b.duration
        · have hB : ¬ (parseHour b.start_time < e) := fun hB => h ⟨hA, hB⟩
          simp [gt_iff_lt, hB]
        · simp [hA]
      simp only [isSlotAvailableLoop, hcond, Bool.false_eq_true, if_false]
      rw [ih]
      constructor
      · intro hall b' hb'
        rcases List.mem_cons.mp hb' with rfl | hmem
        · exact h
        · exact hall b' hmem
      · intro hall b' hb'
        exact hall b' (List.mem_cons_of_mem b hb')

/-- C2 (amended part): the booking form's `isSlotAvailable` reports a slot
bookable iff the half-open candidate interval intersects no existing
reservation's interval, open or closed alike, over the full candidate span. -/
theorem c2_isSlotAvailable_iff (existingBookings : List Booking) (time : String)
    (dur : Nat) (hdur : 0 < dur) (hpos : ∀ b ∈ existingBookings, 0 < b.duration) :
    isSlotAvailable true existingBookings time dur = true ↔
      ∀ b ∈ existingBookings,
        ¬ intervalsIntersect (parseHour time) dur (parseHour b.start_time) b.duration := by
  unfold isSlotAvailable
  simp only [Bool.not_true, Bool.false_eq_true, if_false]
  rw [isSlotAvailableLoop_iff]
  constructor
  · intro hall b hb hint
    exact hall b hb ((overlap_formula_iff (parseHour time) dur (parseHour b.start_time)
      b.duration hdur (hpos b hb)).mpr hint)
  · intro hall b hb hform
    exact hall b hb ((overlap_formula_iff (parseHour time) dur (parseHour b.start_time)
      b.duration hdur (hpos b hb)).mp hform)

/-- Witness for c2_isSlotAvailable_iff: the form refuses 11:00 while a
2-hour reservation starting at 10:00 exists. -/
theorem c2_isSlotAvailable_iff_witness :
    isSlotAvailable true [bClosedRow2h] "11:00" 1 = false := by
  have h := c2_isSlotAvailable_iff [bClosedRow2h] "11:00" 1 (by decide)
    (by intro b hb; rw [List.mem_singleton] at hb; subst hb; decide)
  cases hv : isSlotAvailable true [bClosedRow2h] "11:00" 1 with
  | false => rfl
  | true =>
    exact absurd ⟨11, ⟨by decide, by decide⟩, ⟨by decide, by decide⟩⟩
      (h.mp hv bClosedRow2h (List.mem_singleton_self _))

/-- C2 counterexample: the dialogue's booking path reports 11:00 bookable
(it advances to ask_session_type with time 11:00 stored) on a day whose only
reservation is a 2-hour session starting at 10:00, although the candidate
interval intersects that reservation's interval. -/
theorem c2_counterexample :
    (processMessage cClock [bClosed2h] uBob true
        ⟨ConversationStep.ask_action, { date := some "2025-06-01" }⟩ "Book 11").state.step =
      ConversationStep.ask_session_type ∧
    (processMessage cClock [bClosed2h] uBob true
        ⟨ConversationStep.ask_action, { date := some "2025-06-01" }⟩ "Book 11").state.bstate.time =
      some "11:00" ∧
    intervalsIntersect 11 1 (parseHour bClosed2h.start_time) bClosed2h.duration := by
  exact ⟨by decide, by decide, ⟨11, ⟨by decide, by decide⟩, ⟨by decide, by decide⟩⟩⟩

/-- C3 counterexample: the availability enumeration classifies 11:00 as free
(isAvailable, no openSession) although the 2-hour reservation starting at
10:00 occupies that grid cell. -/
theorem c3_counterexample :
    (getAvailableSlotsForDate cClock [bClosed2h] "2025-06-01").find?
        (fun s => s.time == "11:00") =
      some ⟨"11:00", true, none⟩ ∧
    hourWithinBooking 11 bClosed2h := by
  exact ⟨by decide, by decide, by decide⟩

/-- C3 (amended): the enumeration is the hour-by-hour classification of the
8..19 grid, and an hour not cut off by today's clock is classified free iff
no reservation on that date *starts* exactly at it (a cell inside the tail
of a 2-hour reservation still counts as free), and joinable with session b
iff the lookup finds b starting there, open, with spotsLeft > 0. -/
theorem c3_slot_classification (clock : Clock) (bookings : List BookingW)
    (dateStr : String) (hour : Nat) :
    (getAvailableSlotsForDate clock bookings dateStr =
      ((List.range 12).map (fun k => k + 8)).filterMap (classifyHour clock bookings dateStr)) ∧
    (classifyHour clock bookings dateStr hour =
        some ⟨pad2 (toString hour) ++ ":00", true, none⟩ ↔
      ¬(dateStr = clock.addDaysStr 0 ∧ hour ≤ clock.hourNow) ∧
      bookings.find? (fun b => b.date == dateStr &&
        b.start_time == (pad2 (toString hour) ++ ":00")) = none) ∧
    (∀ b : BookingW, classifyHour clock bookings dateStr hour =
        some ⟨pad2 (toString hour) ++ ":00", true, some b⟩ ↔
      ¬(dateStr = clock.addDaysStr 0 ∧ hour ≤ clock.hourNow) ∧
      bookings.find? (fun b => b.date == dateStr &&
        b.start_time == (pad2 (toString hour) ++ ":00")) = some b ∧
      b.session_type = SessionType.open' ∧
      ((b.participants.length : Int) + 1 < (jsOr b.max_players 10 : Int))) := by
  refine ⟨rfl, ?_, ?_⟩
  · unfold classifyHour
    dsimp only
    by_cases hskip : dateStr = clock.addDaysStr 0 ∧ hour ≤ clock.hourNow
    · have hcond : (dateStr == clock.addDaysStr 0 && decide (hour ≤ clock.hourNow)) = true := by
        simp [hskip.1, hskip.2]
      rw [hcond]
      simp [hskip]
    · have hcond : (dateStr == clock.addDaysStr 0 && decide (hour ≤ clock.hourNow)) = false := by
        by_cases h1 : dateStr = clock.addDaysStr 0
        · have h2 : ¬ hour ≤ clock.hourNow := fun h2 => hskip ⟨h1, h2⟩
          simp [h1, h2]
        · simp [h1]
      rw [hcond]
      simp only [Bool.false_eq_true, if_false]
      cases hfind : bookings.find? (fun b => b.date == dateStr &&
          b.start_time == (pad2 (toString hour) ++ ":00")) with
      | none => simp [hskip]
      | some b =>
        dsimp only
        constructor
        · intro hc
          by_cases hb : (b.session_type == SessionType.open') = true
          · rw [if_pos hb] at hc
            by_cases hsp : ((jsOr b.max_players 10 : Int) -
                ((b.participants.length : Int) + 1)) > 0
            · rw [if_pos hsp] at hc
              simp at hc
            · rw [if_neg hsp] at hc
              exact absurd hc (by simp)
          · rw [if_neg hb] at hc
            exact absurd hc (by simp)
        · rintro ⟨-, hc⟩
          exact absurd hc (by simp)
  · intro b'
    unfold classifyHour
    dsimp only
    by_cases hskip : dateStr = clock.addDaysStr 0 ∧ hour ≤ clock.hourNow
    · have hcond : (dateStr == clock.addDaysStr 0 && decide (hour ≤ clock.hourNow)) = true := by
        simp [hskip.1, hskip.2]
      rw [hcond]
      simp [hskip]
    · have hcond : (dateStr == clock.addDaysStr 0 && decide (hour ≤ clock.hourNow)) = false := by
        by_cases h1 : dateStr = clock.addDaysStr 0
        · have h2 : ¬ hour ≤ clock.hourNow := fun h2 => hskip ⟨h1, h2⟩
          simp [h1, h2]
        · simp [h1]
      rw [hcond]
      simp only [Bool.false_eq_true, if_false]
      cases hfind : bookings.find? (fun b => b.date == dateStr &&
          b.start_time == (pad2 (toString hour) ++ ":00")) with
      | none => simp [hskip]
      | some b =>
        dsimp only
        constructor
        · intro hc
          by_cases hb : (b.session_type == SessionType.open') = true
          · rw [if_pos hb] at hc
            by_cases hsp : ((jsOr b.max_players 10 : Int) -
                ((b.participants.length : Int) + 1)) > 0
            · rw [if_pos hsp] at hc
              simp only [Option.some.injEq, ASlot.mk.injEq] at hc
              obtain ⟨-, -, hb2⟩ := hc
              subst hb2
              exact ⟨hskip, rfl, by simpa using hb, by omega⟩
            · rw [if_neg hsp] at hc
              exact absurd hc (by simp)
          · rw [if_neg hb] at hc
            exact absurd hc (by simp)
        · rintro ⟨-, hfind', hopen, hsp⟩
          have hb2 : b = b' := Option.some.inj hfind'
          subst hb2
          rw [if_pos (by simpa using hopen), if_pos (by omega)]

/-- Helper: membership characterization of `isUserInSession`. -/
theorem isUserInSession_iff (u : User) (b : BookingW) :
    isUserInSession (some u) b = true ↔
      ((b.created_by_name = u.name ∧ b.created_by_level = u.level) ∨
       ∃ p ∈ b.participants, p.player_name = u.name ∧ p.player_level = u.level) := by
  unfold isUserInSession
  dsimp only
  by_cases h : (b.created_by_name == u.name && b.created_by_level == u.level) = true
  · rw [if_pos h]
    simp only [true_iff]
    left
    simpa [Bool.and_eq_true, beq_iff_eq] using h
  · rw [if_neg h]
    rw [List.any_eq_true]
    constructor
    · rintro ⟨p, hp, hpp⟩
      right
      exact ⟨p, hp, by simpa using hpp⟩
    · rintro (hcre | ⟨p, hp, hpp⟩)
      · exact absurd (by simp [hcre.1, hcre.2]) h
      · exact ⟨p, hp, by simpa using hpp⟩

/-- C4 counterexample: Bob is already a participant of the open 10:00
session, yet the dialogue's ask_action join path still offers him the join
(it moves to confirm_join with that session pending). -/
theorem c4_counterexample :
    (processMessage cClock [bOpen10] uBob true
        ⟨ConversationStep.ask_action, { date := some "2025-06-01" }⟩ "Join 10").state.step =
      ConversationStep.confirm_join ∧
    (processMessage cClock [bOpen10] uBob true
        ⟨ConversationStep.ask_action, { date := some "2025-06-01" }⟩ "Join 10").state.bstate.bookingToJoin =
      some bOpen10 ∧
    bOpen10.participants.any
      (fun p => p.player_name == uBob.name && p.player_level == uBob.level) = true := by
  exact ⟨by decide, by decide, by decide⟩

/-- C4 (amended): the list view's `canJoin` reports an open session (with
max_players m) joinable iff spotsLeft = m − (1 + participants.count) is
strictly positive and the user is neither the creator nor an existing
participant. -/
theorem c4_canJoin_iff (u : User) (b : BookingW) (m : Nat)
    (hopen : b.session_type = SessionType.open') (hm : b.max_players = some m) :
    canJoin (some u) b = true ↔
      (1 + b.participants.length < m ∧
       ¬((b.created_by_name = u.name ∧ b.created_by_level = u.level) ∨
         ∃ p ∈ b.participants, p.player_name = u.name ∧ p.player_level = u.level)) := by
  have hjs : jsOr b.max_players 0 = m := by
    rw [hm]; cases m <;> rfl
  have hfull : isSessionFull b = true ↔ m ≤ b.participants.length + 1 := by
    unfold isSessionFull
    rw [if_neg (by simp [hopen])]
    simp [hjs]
  have hin := isUserInSession_iff u b
  unfold canJoin
  constructor
  · intro h
    rw [Bool.and_eq_true, Bool.and_eq_true] at h
    obtain ⟨⟨-, hni⟩, hnf⟩ := h
    rw [Bool.not_eq_true'] at hni hnf
    constructor
    · have : ¬(m ≤ b.participants.length + 1) := fun hle =>
        by have := hfull.mpr hle; rw [this] at hnf; cases hnf
      omega
    · intro habs
      have := hin.mpr habs
      rw [this] at hni
      cases hni
  · rintro ⟨hlt, hnmem⟩
    rw [Bool.and_eq_true, Bool.and_eq_true]
    refine ⟨⟨by simp [hopen], ?_⟩, ?_⟩
    · rw [Bool.not_eq_true']
      cases hv : isUserInSession (some u) b with
      | false => rfl
      | true => exact absurd (hin.mp hv) hnmem
    · rw [Bool.not_eq_true']
      cases hv : isSessionFull b with
      | false => rfl
      | true => exact absurd (hfull.mp hv) (by omega)

/-- Witness for c4_canJoin_iff: Cyd, neither creator nor participant, can
join the open session that has 3 of 5 spots free. -/
theorem c4_canJoin_iff_witness : canJoin (some ⟨"Cyd", "300"⟩) bOpen10 = true :=
  (c4_canJoin_iff ⟨"Cyd", "300"⟩ bOpen10 5 rfl rfl).mpr (by decide)

/-- Helper: every slot produced by `classifyHour` carries that hour's time
string. -/
theorem classifyHour_time (clock : Clock) (bookings : List BookingW)
    (dateStr : String) (hour : Nat) (s : ASlot)
    (h : classifyHour clock bookings dateStr hour = some s) :
    s.time = pad2 (toString hour) ++ ":00" := by
  unfold classifyHour at h
  dsimp only at h
  split at h
  · exact absurd h (by simp)
  · split at h
    · injection h with h2
      subst h2
      rfl
    · split at h
      · split at h
        · injection h with h2
          subst h2
          rfl
        · exact absurd h (by simp)
      · exact absurd h (by simp)

/-- C5 counterexample: with no reservations, the booking form offers the
20:00 slot (TIME_SLOTS includes it, and `availableSlots` only filters on
conflicts). -/
theorem c5_counterexample :
    "20:00" ∈ (availableSlots true [] 1).map (fun s => s.time) := by decide

/-- C5 (amended): the dialogue's enumeration only produces slots on the 08:00
to 19:00 grid, but the form's grid TIME_SLOTS also carries 20:00 (offered
whenever conflict-free). -/
theorem c5_grid_bounds (clock : Clock) (bookings : List BookingW) (dateStr : String) :
    (∀ s ∈ getAvailableSlotsForDate clock bookings dateStr,
      ∃ h, 8 ≤ h ∧ h < 20 ∧ s.time = pad2 (toString h) ++ ":00") ∧
    "20:00" ∈ TIME_SLOTS.map (fun s => s.time) := by
  constructor
  · intro s hs
    unfold getAvailableSlotsForDate at hs
    rw [List.mem_filterMap] at hs
    obtain ⟨a, ha, hcls⟩ := hs
    rw [List.mem_map] at ha
    obtain ⟨k, hk, rfl⟩ := ha
    rw [List.mem_range] at hk
    exact ⟨k + 8, by omega, by omega,
      classifyHour_time clock bookings dateStr (k + 8) s hcls⟩
  · decide

/-- Witness for c5_grid_bounds: the first slot enumerated on an empty day
lies on the 08:00-19:00 grid. -/
theorem c5_grid_bounds_witness :
    ∃ h, 8 ≤ h ∧ h < 20 ∧
      (ASlot.mk "08:00" true none).time = pad2 (toString h) ++ ":00" :=
  (c5_grid_bounds cClock [] "2025-06-01").1 ⟨"08:00", true, none⟩ (by decide)

/-- C6: the delete action is offered exactly to the creator (name and level
both match), the leave action exactly to users appearing among the
participant rows; hence a creator who is not among the participant rows is
never offered leave on their own reservation. -/
theorem c6_ownership_gating (u : User) (b : BookingW) :
    (canDelete (some u) b = true ↔
      (b.created_by_name = u.name ∧ b.created_by_level = u.level)) ∧
    (canLeave (some u) b = true ↔
      ∃ p ∈ b.participants, p.player_name = u.name ∧ p.player_level = u.level) ∧
    ((∀ p ∈ b.participants,
        ¬(p.player_name = b.created_by_name ∧ p.player_level = b.created_by_level)) →
      canLeave (some ⟨b.created_by_name, b.created_by_level⟩) b = false) := by
  have hleave : ∀ v : User, canLeave (some v) b = true ↔
      ∃ p ∈ b.participants, p.player_name = v.name ∧ p.player_level = v.level := by
    intro v
    unfold canLeave
    dsimp only
    rw [List.any_eq_true]
    constructor
    · rintro ⟨p, hp, hpp⟩
      exact ⟨p, hp, by simpa using hpp⟩
    · rintro ⟨p, hp, hpp⟩
      exact ⟨p, hp, by simpa using hpp⟩
  refine ⟨?_, hleave u, ?_⟩
  · unfold canDelete
    dsimp only
    simp [Bool.and_eq_true, beq_iff_eq]
  · intro hnone
    cases hv : canLeave (some ⟨b.created_by_name, b.created_by_level⟩) b with
    | false => rfl
    | true =>
      obtain ⟨p, hp, hpp⟩ := (hleave ⟨b.created_by_name, b.created_by_level⟩).mp hv
      exact absurd hpp (hnone p hp)

/-- Witness for c6_ownership_gating: Ada created the open session and is not
among its participant rows; she is offered delete and not leave. -/
theorem c6_ownership_gating_witness :
    canDelete (some uAda) bOpen10 = true ∧ canLeave (some uAda) bOpen10 = false := by
  constructor
  · exact (c6_ownership_gating uAda bOpen10).1.mpr ⟨rfl, rfl⟩
  · exact (c6_ownership_gating uAda bOpen10).2.2 (by decide)

/-- C7 counterexample: in ask_max_players, the input "no idea" matches no
recognized choice (it contains no digit), yet the dialogue advances to
ask_duration with the defaulted value maxPlayers = 14 instead of
re-prompting with the state unchanged. -/
theorem c7_counterexample :
    processMessage cClock [] uBob true ⟨ConversationStep.ask_max_players, draftMax⟩ "no idea" =
      ⟨⟨ConversationStep.ask_duration, { draftMax with maxPlayers := some 14 }⟩,
       [BotMsg.playersAskDuration], []⟩ := by decide

/-- C7 (amended): on input containing no reset phrase, ask_session_type
re-prompts leaving state and draft unchanged when no session-type keyword
matches; but ask_max_players advances with the default 14 whenever the input
has no digit, and ask_duration advances with the default 1 hour whenever the
input lacks the character '2'. -/
theorem c7_draft_steps (clock : Clock) (bookings : List BookingW) (user : User)
    (insertOk : Bool) (st : AState) (msg : String)
    (hreset1 : containsStr (toLowerStr msg) "start over" = false)
    (hreset2 : containsStr (toLowerStr msg) "cancel" = false)
    (hreset3 : containsStr (toLowerStr msg) "reset" = false)
    (hday1 : containsStr (toLowerStr msg) "another day" = false)
    (hday2 : containsStr (toLowerStr msg) "different day" = false)
    (hday3 : containsStr (toLowerStr msg) "pick another" = false) :
    (st.step = ConversationStep.ask_session_type →
      containsStr (toLowerStr msg) "open" = false →
      containsStr (toLowerStr msg) "closed" = false →
      containsStr (toLowerStr msg) "private" = false →
      processMessage clock bookings user insertOk st msg =
        ⟨st, [BotMsg.chooseSessionType], []⟩) ∧
    (st.step = ConversationStep.ask_max_players →
      firstDigitRun msg.toList = none →
      processMessage clock bookings user insertOk st msg =
        ⟨⟨ConversationStep.ask_duration, { st.bstate with maxPlayers := some 14 }⟩,
         [BotMsg.playersAskDuration], []⟩) ∧
    (st.step = ConversationStep.ask_duration →
      containsStr msg "2" = false →
      processMessage clock bookings user insertOk st msg =
        ⟨⟨ConversationStep.confirm_booking, { st.bstate with duration := some 1 }⟩,
         [BotMsg.bookingSummary], []⟩) := by
  have hc1 : (containsStr (toLowerStr msg) "start over" ||
      containsStr (toLowerStr msg) "cancel" ||
      containsStr (toLowerStr msg) "reset") = false := by
    rw [hreset1, hreset2, hreset3]; rfl
  have hc2 : (containsStr (toLowerStr msg) "another day" ||
      containsStr (toLowerStr msg) "different day" ||
      containsStr (toLowerStr msg) "pick another") = false := by
    rw [hday1, hday2, hday3]; rfl
  refine ⟨?_, ?_, ?_⟩
  · intro hstep hopen hclosed hpriv
    unfold processMessage
    dsimp only
    rw [hc1]
    simp only [Bool.false_eq_true, if_false]
    rw [hc2]
    simp only [Bool.false_eq_true, if_false]
    rw [hstep]
    dsimp only
    unfold handleSessionTypeResponse
    dsimp only
    rw [hopen]
    simp only [Bool.false_eq_true, if_false]
    rw [hclosed, hpriv]
    rfl
  · intro hstep hnone
    unfold processMessage
    dsimp only
    rw [hc1]
    simp only [Bool.false_eq_true, if_false]
    rw [hc2]
    simp only [Bool.false_eq_true, if_false]
    rw [hstep]
    dsimp only
    unfold handleMaxPlayersResponse
    rw [hnone]
  · intro hstep h2
    unfold processMessage
    dsimp only
    rw [hc1]
    simp only [Bool.false_eq_true, if_false]
    rw [hc2]
    simp only [Bool.false_eq_true, if_false]
    rw [hstep]
    dsimp only
    unfold handleDurationResponse
    rw [h2]
    rfl

/-- Witness for c7_draft_steps: in ask_session_type the unmatched input
"hello" re-prompts with conversation state and draft unchanged. -/
theorem c7_draft_steps_witness :
    processMessage cClock [] uBob true ⟨ConversationStep.ask_session_type, draftMax⟩ "hello" =
      ⟨⟨ConversationStep.ask_session_type, draftMax⟩, [BotMsg.chooseSessionType], []⟩ :=
  (c7_draft_steps cClock [] uBob true ⟨ConversationStep.ask_session_type, draftMax⟩ "hello"
    (by decide) (by decide) (by decide) (by decide) (by decide) (by decide)).1
    rfl (by decide) (by decide) (by decide)

/-- Helper: resolving the day never writes to the store. -/
theorem handleWhenResponse_writes (clock : Clock) (bookings : List BookingW)
    (st : AState) (msg : String) :
    (handleWhenResponse clock bookings st msg).writes = [] := by
  unfold handleWhenResponse
  cases findDateByDayName clock msg with
  | none => rfl
  | some off =>
    dsimp only
    split <;> rfl

/-- Helper: the verb-without-time tail never writes to the store. -/
theorem handleActionNoTime_writes (clock : Clock) (bookings : List BookingW)
    (st : AState) (lower : String) :
    (handleActionNoTime clock bookings st lower).writes = [] := by
  unfold handleActionNoTime
  dsimp only
  split
  · split <;> rfl
  · split
    · split <;> rfl
    · rfl

/-- Helper: the ask_action handler never writes to the store. -/
theorem handleActionResponse_writes (clock : Clock) (bookings : List BookingW)
    (st : AState) (msg : String) :
    (handleActionResponse clock bookings st msg).writes = [] := by
  unfold handleActionResponse
  dsimp only
  cases hext : extractTime msg with
  | none => exact handleActionNoTime_writes clock bookings st (toLowerStr msg)
  | some time =>
    dsimp only
    split
    · split <;> rfl
    · split
      · split <;> rfl
      · exact handleActionNoTime_writes clock bookings st (toLowerStr msg)

/-- C8: a store write (reservation insert or participant insert) is emitted
only when processing input in confirm_booking or confirm_join with
affirmative input; every other state's processing leaves the write list
empty. -/
theorem c8_writes_only_on_confirm (clock : Clock) (bookings : List BookingW)
    (user : User) (insertOk : Bool) (st : AState) (msg : String)
    (hw : (processMessage clock bookings user insertOk st msg).writes ≠ []) :
    (st.step = ConversationStep.confirm_booking ∧
      (containsStr (toLowerStr msg) "yes" = true ∨
       containsStr (toLowerStr msg) "book" = true)) ∨
    (st.step = ConversationStep.confirm_join ∧
      (containsStr (toLowerStr msg) "yes" = true ∨
       containsStr (toLowerStr msg) "join" = true)) := by
  unfold processMessage at hw
  dsimp only at hw
  split at hw
  · exact absurd rfl hw
  · split at hw
    · exact absurd rfl hw
    · cases hstep : st.step with
      | greeting => rw [hstep] at hw; exact absurd rfl hw
      | ask_when =>
        rw [hstep] at hw; dsimp only at hw
        exact absurd (handleWhenResponse_writes clock bookings st msg) hw
      | show_options =>
        rw [hstep] at hw; dsimp only at hw
        exact absurd (handleActionResponse_writes clock bookings st msg) hw
      | ask_action =>
        rw [hstep] at hw; dsimp only at hw
        exact absurd (handleActionResponse_writes clock bookings st msg) hw
      | ask_session_type =>
        rw [hstep] at hw; dsimp only at hw
        unfold handleSessionTypeResponse at hw
        dsimp only at hw
        split at hw
        · exact absurd rfl hw
        · split at hw <;> exact absurd rfl hw
      | ask_max_players =>
        rw [hstep] at hw; dsimp only at hw
        exact absurd rfl hw
      | ask_duration =>
        rw [hstep] at hw; dsimp only at hw
        exact absurd rfl hw
      | done =>
        rw [hstep] at hw; dsimp only at hw
        unfold handleDoneResponse at hw
        dsimp only at hw
        split at hw
        · exact absurd rfl hw
        · split at hw
          · exact absurd rfl hw
          · split at hw <;> exact absurd rfl hw
      | confirm_booking =>
        rw [hstep] at hw; dsimp only at hw
        unfold handleConfirmBooking at hw
        dsimp only at hw
        split at hw
        · rename_i hcond
          simp only [Bool.or_eq_true] at hcond
          exact Or.inl ⟨rfl, hcond⟩
        · exact absurd rfl hw
      | confirm_join =>
        rw [hstep] at hw; dsimp only at hw
        unfold handleConfirmJoin at hw
        dsimp only at hw
        split at hw
        · rename_i hcond
          simp only [Bool.or_eq_true] at hcond
          exact Or.inr ⟨rfl, hcond⟩
        · exact absurd (handleWhenResponse_writes clock bookings st
            (clock.weekdayName (st.bstate.date.getD ""))) hw

/-- Witness for c8_writes_only_on_confirm: confirming the complete draft with
"Yes, book it!" does emit a write, and the theorem places it in
confirm_booking with affirmative input. -/
theorem c8_writes_only_on_confirm_witness :
    ((⟨ConversationStep.confirm_booking, draftConfirm⟩ : AState).step =
        ConversationStep.confirm_booking ∧
      (containsStr (toLowerStr "Yes, book it!") "yes" = true ∨
       containsStr (toLowerStr "Yes, book it!") "book" = true)) ∨
    ((⟨ConversationStep.confirm_booking, draftConfirm⟩ : AState).step =
        ConversationStep.confirm_join ∧
      (containsStr (toLowerStr "Yes, book it!") "yes" = true ∨
       containsStr (toLowerStr "Yes, book it!") "join" = true)) :=
  c8_writes_only_on_confirm cClock [] uAda true
    ⟨ConversationStep.confirm_booking, draftConfirm⟩ "Yes, book it!" (by decide)

/-- Helper: the regex's 1-2 digit group is the first maximal digit run
truncated to two characters. -/
theorem firstTimeToken_eq_take2 (l : List Char) :
    firstTimeToken l = (firstDigitRun l).map (fun ds => ds.take 2) := by
  induction l with
  | nil => rfl
  | cons c cs ih =>
    simp only [firstTimeToken, firstDigitRun]
    by_cases h : c.isDigit
    · rw [if_pos h, if_pos h]
      cases cs with
      | nil => rfl
      | cons d ds =>
        by_cases hd : d.isDigit
        · simp [hd, List.takeWhile_cons, List.take]
        · simp [hd, List.takeWhile_cons, List.take]
    · rw [if_neg h, if_neg h]
      exact ih

/-- Helper: the extracted time token is the first 1-2 digit number of the
message, zero-padded, with ":00" appended. -/
theorem extractTime_eq_claim (msg : String) :
    extractTime msg = (claimFirstHourToken msg).map (fun s => pad2 s ++ ":00") := by
  unfold extractTime claimFirstHourToken
  rw [firstTimeToken_eq_take2]
  cases firstDigitRun msg.toList <;> rfl

/-- Helper: the verb-without-time tail leaves the draft untouched. -/
theorem handleActionNoTime_bstate (clock : Clock) (bookings : List BookingW)
    (st : AState) (lower : String) :
    (handleActionNoTime clock bookings st lower).state.bstate = st.bstate := by
  unfold handleActionNoTime
  dsimp only
  split
  · split <;> rfl
  · split
    · split <;> rfl
    · rfl

/-- C9: the ask_action time token is group 1 of the first regex match — the
first 1-2 digit number — normalized to that hour on the hour (minutes are
dropped), so any time the ask_action step stores into the draft has the
form HH:00. -/
theorem c9_time_extraction (msg : String) :
    (extractTime msg = (claimFirstHourToken msg).map (fun s => pad2 s ++ ":00")) ∧
    (∀ (clock : Clock) (bookings : List BookingW) (user : User) (insertOk : Bool)
        (st : AState) (t : String),
      st.step = ConversationStep.ask_action →
      st.bstate.time = none →
      (processMessage clock bookings user insertOk st msg).state.bstate.time = some t →
      ∃ s, claimFirstHourToken msg = some s ∧ t = pad2 s ++ ":00") := by
  refine ⟨extractTime_eq_claim msg, ?_⟩
  intro clock bookings user insertOk st t hstep htime hres
  unfold processMessage at hres
  dsimp only at hres
  split at hres
  · simp [resetConversation] at hres
  · split at hres
    · rw [htime] at hres
      cases hres
    · rw [hstep] at hres
      dsimp only at hres
      unfold handleActionResponse at hres
      dsimp only at hres
      cases hext : extractTime msg with
      | none =>
        rw [hext] at hres
        dsimp only at hres
        rw [handleActionNoTime_bstate] at hres
        rw [htime] at hres
        cases hres
      | some time =>
        have hshape : ∃ s, claimFirstHourToken msg = some s ∧ time = pad2 s ++ ":00" := by
          have h1 := extractTime_eq_claim msg
          rw [hext] at h1
          cases hclaim : claimFirstHourToken msg with
          | none => rw [hclaim] at h1; cases h1
          | some s =>
            rw [hclaim] at h1
            exact ⟨s, rfl, Option.some.inj h1⟩
        rw [hext] at hres
        dsimp only at hres
        split at hres
        · split at hres
          · dsimp only at hres
            have ht : t = time := (Option.some.inj hres).symm
            subst ht
            exact hshape
          · rw [htime] at hres
            cases hres
        · split at hres
          · split at hres
            · rw [htime] at hres
              cases hres
            · dsimp only at hres
              have ht : t = time := (Option.some.inj hres).symm
              subst ht
              exact hshape
          · rw [handleActionNoTime_bstate] at hres
            rw [htime] at hres
            cases hres

/-- Witness for c9_time_extraction: asking to join at "14:30" stores the
on-the-hour time 14:00 (the 14 is the first 1-2 digit number). -/
theorem c9_time_extraction_witness :
    ∃ s, claimFirstHourToken "Join 14:30" = some s ∧ "14:00" = pad2 s ++ ":00" :=
  (c9_time_extraction "Join 14:30").2 cClock [bOpen14] uBob true
    ⟨ConversationStep.ask_action, { date := some "2025-06-01" }⟩ "14:00"
    rfl rfl (by decide)

/-- C10: the store-level join enforcement does not exclude the creator. For
an open booking with remaining capacity and no participant row carrying the
creator's (name, level), inserting a participant row with exactly the
creator's identity succeeds: the trigger checks only existence, closed
session and the count limit, and the uniqueness constraint ranges only over
participant rows — so the creator's occupancy is double-counted afterwards. -/
theorem c10_creator_can_join (st : Store) (b : Booking) (m : Nat)
    (hfind : st.bookings.find? (fun x => x.id == b.id) = some b)
    (hopen : b.session_type = SessionType.open')
    (hm : b.max_players = some m)
    (hcap : countParticipants st.participants b.id + 2 ≤ m)
    (hnodup : st.participants.any (fun p =>
        p.booking_id == b.id &&
        p.player_name == b.created_by_name &&
        p.player_level == b.created_by_level) = false) :
    insertParticipant st ⟨b.id, b.created_by_name, b.created_by_level⟩ =
      Except.ok { st with participants :=
        ⟨b.id, b.created_by_name, b.created_by_level⟩ :: st.participants } ∧
    countParticipants
        (⟨b.id, b.created_by_name, b.created_by_level⟩ :: st.participants) b.id =
      countParticipants st.participants b.id + 1 := by
  constructor
  · have hval : validate_player_limit st.bookings st.participants
        ⟨b.id, b.created_by_name, b.created_by_level⟩ = Except.ok () := by
      unfold validate_player_limit
      rw [show (⟨b.id, b.created_by_name, b.created_by_level⟩ : Participant).booking_id =
        b.id from rfl]
      rw [hfind]
      dsimp only
      rw [if_neg (by simp [hopen]), hm]
      dsimp only
      rw [if_neg (by omega)]
    unfold insertParticipant
    rw [hval]
    dsimp only
    simp only [hnodup, Bool.false_eq_true, if_false]
  · exact countParticipants_cons_same st.participants
      ⟨b.id, b.created_by_name, b.created_by_level⟩

/-- Witness for c10_creator_can_join: Ada, the creator of the open booking
with one spot left, joins her own session; the store accepts the row. -/
theorem c10_creator_can_join_witness :
    insertParticipant stOpen pAda =
      Except.ok { stOpen with participants := pAda :: stOpen.participants } ∧
    countParticipants (pAda :: stOpen.participants) 1 =
      countParticipants stOpen.participants 1 + 1 :=
  c10_creator_can_join stOpen bOpenRow 4 (by decide) rfl rfl (by decide) (by decide)

end Pitchbooking










